import Mathlib

/-!
# Verification of the `ponos` Worker (src/src/worker.js)

A shallow embedding of the per-job task-execution state machine implemented
by the `Worker` class, together with theorems settling the specification
claims.  Definitions mirror the JavaScript source:

* the error objects flowing through the promise catch chain (`JsError`),
* the normalization step (cause unwrap + contextual data fill,
  worker.js lines 164-178),
* the effective classification of a raised error (timeout / fatal /
  retryable, lines 157-207),
* the retry-delay transition (lines 200-204),
* the run loop as a recursion over the per-attempt outcome trace
  (lines 123-213),
* the constructor with its validation, whitelisting and defaults
  (lines 55-102),
* telemetry tag derivation (`_eventTags`, lines 242-256).

External effects (logging, the metric sink, the error reporter, the `done`
callback) are recorded in an explicit event log; they are modelled as pure
sinks that never themselves fail, which is the boundary the spec draws.
-/

namespace Ponos

/-- A job payload: an optional correlation id `tid` plus opaque payload
fields (worker.js line 83 reads only `job.tid`). -/
structure Job where
  tid : Option String
  payload : List (String × String)
  deriving DecidableEq, Repr

/-- The JavaScript class of an error object.  Classes are exclusive:
an object is an `instanceof` exactly one of bluebird's `TimeoutError`,
error-cat's `WorkerStopError`, or a generic `Error`. -/
inductive ErrKind where
  | timeout
  | workerStop
  | generic
  deriving DecidableEq, Repr

/-- The `data` property of an error object, when it is an object:
optional `queue` and `job` fields plus the remaining fields.
`data.queue` holds a string (possibly empty — JS truthiness matters),
`data.job` holds an object (objects are always truthy). -/
structure ErrData where
  queue : Option String
  job : Option Job
  rest : List (String × String)
  deriving DecidableEq, Repr

/-- An error object as seen by the catch chain, after the optional
one-level cause unwrap: class plus `data` property (`none` models a
`data` that is absent or not an object, cf. `isObject(err.data)`). -/
structure ErrCore where
  kind : ErrKind
  data : Option ErrData
  deriving DecidableEq, Repr

/-- A raised error: its own class/data plus an optional `cause`
property.  The code reads `cause` exactly once (line 165-167), and never
reads the cause's own cause, so one level suffices. -/
structure JsError where
  core : ErrCore
  cause : Option ErrCore
  deriving DecidableEq, Repr

/-- JS truthiness of an optional string value: absent, and the empty
string, are falsy. -/
def truthyStr : Option String → Bool
  | some s => s ≠ ""
  | none => false

/-- Lines 165-167: `if (err.cause) { err = err.cause }` — an error object
as cause is always truthy, so unwrap exactly when present. -/
def unwrapCause (e : JsError) : ErrCore :=
  match e.cause with
  | some c => c
  | none => e.core

/-- Lines 168-176: ensure `err.data` is an object, then fill `data.queue`
and `data.job` from the worker when they are falsy (`!err.data.queue`,
`!err.data.job`; a job object is always truthy, so for `job` falsy means
absent). -/
def fillData (queue : String) (job : Job) (c : ErrCore) : ErrCore :=
  let d := c.data.getD ⟨none, none, []⟩
  let d := if truthyStr d.queue then d else { d with queue := some queue }
  let d := if d.job.isSome then d else { d with job := some job }
  { c with data := some d }

/-- The whole normalization catch (lines 164-178): unwrap a wrapping
cause, then fill contextual data. -/
def normalizeError (queue : String) (job : Job) (e : JsError) : ErrCore :=
  fillData queue job (unwrapCause e)

/-- Classification of a raised error, as in the spec's data model:
`{Success, Timeout, Fatal, Retryable}` (success is handled separately by
the run loop, so only the three error classifications appear here).
The carried error is the normalized error the later branches observe. -/
inductive Classification where
  | fatal (e : ErrCore)
  | timeout (e : ErrCore)
  | retryable (e : ErrCore)
  deriving DecidableEq, Repr

def Classification.isFatal : Classification → Bool
  | .fatal _ => true
  | _ => false

/-- The effective classification performed by the catch chain
(lines 157-207): the `TimeoutError` catch runs first but only logs and
rethrows, then normalization runs, then the `WorkerStopError` catch
decides fatal; everything else falls into the retry catch.  So the
fatal/retryable decision is taken on the cause-unwrapped error, and the
timeout marking on the original error. -/
def classify (queue : String) (job : Job) (e : JsError) : Classification :=
  let n := normalizeError queue job e
  if (unwrapCause e).kind = .workerStop then .fatal n
  else if e.core.kind = .timeout then .timeout n
  else .retryable n

/-- Lines 200-204: after the delay has elapsed, re-read
`WORKER_MAX_RETRY_DELAY` (already `parseInt(...) || 0`, hence a natural
number, `0` when unset or unparsable) and double the current delay only
when it is still strictly below that maximum. -/
def nextRetryDelay (maxDelay d : Nat) : Nat :=
  if d < maxDelay then d * 2 else d

/-- The outcome of one invocation of the task function for one attempt:
it either fulfills (any result value) or rejects with an error.  A
bluebird timeout expiry surfaces here as a rejection whose error has
`ErrKind.timeout`. -/
inductive Outcome where
  | success
  | failure (e : JsError)
  deriving DecidableEq, Repr

/-- An attempt outcome that terminates the run loop: a fulfilled task, or
a rejection whose cause-unwrapped error is a `WorkerStopError` (the only
rejection the chain does not retry). -/
def isTerminal (o : Outcome) : Bool :=
  match o with
  | .success => true
  | .failure e => (unwrapCause e).kind = .workerStop

/-- The mutable per-worker state together with the observable event log
accumulated by a run: the attempt counter and current retry delay
(worker state proper), the number of `done()` invocations, the errors
handed to `errorCat.report`, the delays passed to `Promise.delay`, and
the `result` tags of the `ponos.finish` metric emissions, in order. -/
structure RunState where
  attempt : Nat
  retryDelay : Nat
  doneCount : Nat
  reports : List ErrCore
  delays : List Nat
  finishes : List String
  deriving DecidableEq, Repr

/-- Initial state at construction: `attempt = 0` and `retryDelay` at its
configured initial value; empty event log. -/
def initState (d : Nat) : RunState :=
  ⟨0, d, 0, [], [], []⟩

/-- The run loop (worker.js lines 123-213) as a recursion over the trace
of per-attempt outcomes.  One iteration: increment the attempt counter,
run the task, then walk the catch chain —

* fulfilled → `ponos.finish{result:success}`, call `done()`, stop;
* `TimeoutError` → `ponos.finish{result:timeout-error}`, rethrow;
* normalize (cause unwrap + data fill);
* `WorkerStopError` → `ponos.finish{result:fatal-error}`, report, call
  `done()`, stop;
* otherwise → `ponos.finish{result:task-error}`, report, wait the
  current `retryDelay`, then double the delay while below
  `WORKER_MAX_RETRY_DELAY` (`maxDelay`), and recurse.

Returns the state/log and whether the loop terminated; a trace shorter
than the number of failures leaves the loop still pending (`false`). -/
def runLoop (maxDelay : Nat) (queue : String) (job : Job) :
    List Outcome → RunState → RunState × Bool
  | [], s => (s, false)
  | o :: rest, s =>
    let s := { s with attempt := s.attempt + 1 }
    match o with
    | .success =>
      ({ s with doneCount := s.doneCount + 1,
                finishes := s.finishes ++ ["success"] }, true)
    | .failure e =>
      let s := if e.core.kind = .timeout then
          { s with finishes := s.finishes ++ ["timeout-error"] } else s
      let n := normalizeError queue job e
      if n.kind = .workerStop then
        ({ s with finishes := s.finishes ++ ["fatal-error"],
                  reports := s.reports ++ [n],
                  doneCount := s.doneCount + 1 }, true)
      else
        runLoop maxDelay queue job rest
          { s with finishes := s.finishes ++ ["task-error"],
                   reports := s.reports ++ [n],
                   delays := s.delays ++ [s.retryDelay],
                   retryDelay := nextRetryDelay maxDelay s.retryDelay }

/-- A JavaScript value in timeout position, abstracted by what
`parseInt(v, 10)` yields on it: `some n` when it parses, `none` when the
result is `NaN` (non-numeric input). -/
structure JsVal where
  parsed : Option Int
  deriving DecidableEq, Repr

/-- Environment-derived configuration, read by the worker:
`WORKER_TIMEOUT` (`none` models unset/empty, in which case `|| 0`
substitutes the number `0`), `WORKER_MIN_RETRY_DELAY` (`none` models
unset/empty, `|| 1` substitutes `1`; otherwise its numeric value), and
`WORKER_MAX_RETRY_DELAY` already as `parseInt(...) || 0`. -/
structure Env where
  workerTimeout : Option JsVal
  minRetryDelay : Option Nat
  maxRetryDelay : Nat
  deriving DecidableEq, Repr

/-- The constructor's options object.  Required capabilities (`done`,
`log`, `task`, `errorCat`) are modelled by their presence alone
(`exists(opts[f])`), since the embedding treats them as pure sinks.  The
fields `attempt`, `retryDelay` and `tid` are NOT in the constructor's
whitelist (lines 57-72); they stand for a caller trying to smuggle
initial state in, and `Worker.construct` must ignore them. -/
structure Opts where
  done : Option Unit
  job : Option Job
  log : Option Unit
  queue : Option String
  task : Option Unit
  errorCat : Option Unit
  msTimeout : Option JsVal
  runNow : Option Bool
  attempt : Option Nat
  retryDelay : Option Nat
  tid : Option String
  deriving DecidableEq, Repr

/-- The state a successfully constructed worker starts with (the fields
`Object.assign(this, opts)` plus `this.tid` establish). -/
structure Worker where
  attempt : Nat
  retryDelay : Nat
  msTimeout : Int
  queue : String
  job : Job
  tid : String
  runNow : Bool
  deriving DecidableEq, Repr

/-- The constructor (worker.js lines 55-102).  `fresh` stands for the
`uuid()` the code would generate (the one nondeterministic input).

Checks the required fields in source order with `exists`; `pick` keeps
only whitelisted options, so `opts.attempt`, `opts.retryDelay` and
`opts.tid` are discarded and `defaults` then always installs
`attempt = 0` and `retryDelay = WORKER_MIN_RETRY_DELAY || 1`;
`this.tid = opts.job.tid || uuid()` (an empty-string tid is falsy);
finally `msTimeout = parseInt(msTimeout, 10)` must be a number and
non-negative. -/
def Worker.construct (env : Env) (fresh : String) (opts : Opts) :
    Except String Worker :=
  match opts.done with
  | none => .error "done is required for a Worker"
  | some _ =>
  match opts.job with
  | none => .error "job is required for a Worker"
  | some job =>
  match opts.log with
  | none => .error "log is required for a Worker"
  | some _ =>
  match opts.queue with
  | none => .error "queue is required for a Worker"
  | some queue =>
  match opts.task with
  | none => .error "task is required for a Worker"
  | some _ =>
  let runNow := opts.runNow.getD true
  let msTimeoutVal := opts.msTimeout.getD (env.workerTimeout.getD ⟨some 0⟩)
  let retryDelay := env.minRetryDelay.getD 1
  let tid :=
    match job.tid with
    | some t => if t ≠ "" then t else fresh
    | none => fresh
  match msTimeoutVal.parsed with
  | none => .error "Provided `msTimeout` is not an integer"
  | some n =>
    if n < 0 then .error "Provided `msTimeout` is negative"
    else .ok ⟨0, retryDelay, n, queue, job, tid, runNow⟩

/-- JavaScript `queue.split('.')` over the character list:
`"".split('.') = [""]`, and every `'.'` opens a new (possibly empty)
part. -/
def splitOnDot : List Char → List String
  | [] => [""]
  | c :: rest =>
    match splitOnDot rest with
    | [] => [""]
    | s :: ss => if c = '.' then "" :: s :: ss else (⟨[c]⟩ ++ s) :: ss

/-- Joining parts back with `'.'`; inverse of `splitOnDot`. -/
def joinDots : List String → String
  | [] => ""
  | [s] => s
  | s :: t :: rest => s ++ "." ++ joinDots (t :: rest)

/-- The body of the `reduce` in `_eventTags` (lines 245-253): walking the
reversed token list with the running index and `lastToken`, emitting
`token<i>` keys in insertion order. -/
def tagsAux : Nat → String → List String → List (String × String)
  | _, _, [] => []
  | i, lastToken, t :: rest =>
    let newToken := if i = 0 then t else t ++ "." ++ lastToken
    ("token" ++ toString i, newToken) :: tagsAux (i + 1) newToken rest

/-- `_eventTags` (lines 242-256): split the queue name on `'.'`, reverse,
reduce to the `token<i>` tags, then add the full queue name under the
`queue` key. -/
def _eventTags (queue : String) : List (String × String) :=
  tagsAux 0 "" ((splitOnDot queue.data).reverse) ++ [("queue", queue)]

/-- The sequence of delays `Promise.delay` receives over `n` consecutive
retryable failures, starting from current delay `d`: the current delay is
waited first, then updated (lines 198-204). -/
def delaySeq (maxDelay d : Nat) : Nat → List Nat
  | 0 => []
  | n + 1 => d :: delaySeq maxDelay (nextRetryDelay maxDelay d) n

/-- The number of doublings the retry delay undergoes before stabilizing:
the least `k` with `d * 2 ^ k ≥ maxDelay` (0 when `d = 0`, where the
delay is stuck at 0 anyway).  For `maxDelay = 0` this is 0: the delay
never doubles. -/
def doublings (maxDelay d : Nat) : Nat :=
  if hd : 0 < d then
    Nat.find (p := fun k => maxDelay ≤ d * 2 ^ k)
      ⟨maxDelay, le_trans (le_of_lt (Nat.lt_two_pow maxDelay))
        (Nat.le_mul_of_pos_left _ hd)⟩
  else 0

/-- Whether construction succeeds (no validation error thrown). -/
def constructOk (env : Env) (fresh : String) (opts : Opts) : Bool :=
  match Worker.construct env fresh opts with
  | .ok _ => true
  | .error _ => false

/-- Fixture: a bare generic task error. -/
def genericErr : JsError := ⟨⟨.generic, none⟩, none⟩

/-- Fixture: the bluebird timeout signal (no cause, no data). -/
def timeoutErr : JsError := ⟨⟨.timeout, none⟩, none⟩

/-- Fixture: a bare `WorkerStopError`. -/
def stopErr : JsError := ⟨⟨.workerStop, none⟩, none⟩

/-- Fixture: a job without `tid` or payload. -/
def emptyJob : Job := ⟨none, []⟩

/-- Fixture: an environment with no variables set. -/
def sampleEnv : Env := ⟨none, none, 0⟩

/-- Fixture: a fully supplied, valid options object with a timeout of
5ms. -/
def sampleOpts : Opts :=
  ⟨some (), some emptyJob, some (), some "a.b", some (), none,
    some ⟨some 5⟩, none, none, none, none⟩

end Ponos

namespace Ponos

/-! ## Helper lemmas -/

theorem fillData_kind (q : String) (j : Job) (c : ErrCore) :
    (fillData q j c).kind = c.kind := rfl

theorem normalizeError_kind (q : String) (j : Job) (e : JsError) :
    (normalizeError q j e).kind = (unwrapCause e).kind := rfl

theorem isTerminal_failure_iff (q : String) (j : Job) (e : JsError) :
    isTerminal (.failure e) = true ↔
      (normalizeError q j e).kind = .workerStop := by
  simp [isTerminal, normalizeError_kind]

/-- One step of the delay update never decreases the delay. -/
theorem le_nextRetryDelay (m d : Nat) : d ≤ nextRetryDelay m d := by
  simp only [nextRetryDelay]
  split <;> omega

/-- Once the delay is at or above the maximum it is fixed. -/
theorem nextRetryDelay_of_ge (m d : Nat) (h : m ≤ d) :
    nextRetryDelay m d = d := by
  simp only [nextRetryDelay]
  rw [if_neg (by omega)]

/-- Once the delay is at or above the maximum, every later delay equals it. -/
theorem iterate_nextRetryDelay_of_ge (m d : Nat) (h : m ≤ d) :
    ∀ n, (nextRetryDelay m)^[n] d = d := by
  intro n
  induction n with
  | zero => rfl
  | succ n ih => rw [Function.iterate_succ_apply', ih, nextRetryDelay_of_ge m d h]

theorem doublings_exists (m d : Nat) (hd : 0 < d) : ∃ k, m ≤ d * 2 ^ k :=
  ⟨m, le_trans (le_of_lt (Nat.lt_two_pow m)) (Nat.le_mul_of_pos_left _ hd)⟩

theorem doublings_spec (m d : Nat) (hd : 0 < d) :
    m ≤ d * 2 ^ doublings m d := by
  rw [doublings, dif_pos hd]
  exact Nat.find_spec (doublings_exists m d hd)

theorem doublings_min (m d : Nat) (hd : 0 < d) {k : Nat}
    (hk : k < doublings m d) : d * 2 ^ k < m := by
  rw [doublings, dif_pos hd] at hk
  have h := Nat.find_min (doublings_exists m d hd) hk
  omega

/-- Closed form of the delay after `n` updates: it doubles exactly
`doublings m d` times, then stays. -/
theorem iterate_nextRetryDelay_closed (m d : Nat) (hd : 0 < d) (n : Nat) :
    (nextRetryDelay m)^[n] d = d * 2 ^ min n (doublings m d) := by
  induction n with
  | zero => simp
  | succ n ih =>
    rw [Function.iterate_succ_apply', ih]
    rcases Nat.lt_or_ge n (doublings m d) with h | h
    · rw [Nat.min_eq_left (Nat.le_of_lt h),
        Nat.min_eq_left (Nat.succ_le_of_lt h)]
      rw [nextRetryDelay, if_pos (doublings_min m d hd h)]
      rw [pow_succ]
      ring
    · rw [Nat.min_eq_right h, Nat.min_eq_right (Nat.le_succ_of_le h)]
      exact nextRetryDelay_of_ge _ _ (doublings_spec m d hd)

/-- The delays handed to `Promise.delay` over `n` retries are the
iterates of the update. -/
theorem delaySeq_eq_iterates (m : Nat) :
    ∀ (n : Nat) (d : Nat),
      delaySeq m d n = (List.range n).map (fun i => (nextRetryDelay m)^[i] d) := by
  intro n
  induction n with
  | zero => intro d; simp [delaySeq]
  | succ n ih =>
    intro d
    rw [delaySeq, ih, List.range_succ_eq_map, List.map_cons, List.map_map]
    refine congrArg₂ _ rfl (List.map_congr_left ?_)
    intro i _
    simp [Function.iterate_succ_apply]

/-- The run loop terminates exactly when the outcome trace contains a
terminal outcome (a success, or a failure whose unwrapped error is a
`WorkerStopError`). -/
theorem runLoop_term (m : Nat) (q : String) (j : Job) :
    ∀ (tr : List Outcome) (s : RunState),
      (runLoop m q j tr s).2 = tr.any isTerminal := by
  intro tr
  induction tr with
  | nil => intro s; simp [runLoop]
  | cons o rest ih =>
    intro s
    cases o with
    | success => simp [runLoop, isTerminal]
    | failure e =>
      by_cases hf : (normalizeError q j e).kind = .workerStop
      · have ht : isTerminal (.failure e) = true :=
          (isTerminal_failure_iff q j e).mpr hf
        by_cases htm : e.core.kind = .timeout <;>
          simp [runLoop, hf, ht, htm]
      · have ht : isTerminal (.failure e) = false := by
          rw [Bool.eq_false_iff]
          intro hc
          exact hf ((isTerminal_failure_iff q j e).mp hc)
        by_cases htm : e.core.kind = .timeout <;>
          simp [runLoop, hf, ht, htm, ih]

/-- `done()` is called exactly once when the loop reaches a terminal
outcome, and not at all while it is still retrying. -/
theorem runLoop_doneCount (m : Nat) (q : String) (j : Job) :
    ∀ (tr : List Outcome) (s : RunState),
      (runLoop m q j tr s).1.doneCount =
        s.doneCount + (if tr.any isTerminal = true then 1 else 0) := by
  intro tr
  induction tr with
  | nil => intro s; simp [runLoop]
  | cons o rest ih =>
    intro s
    cases o with
    | success => simp [runLoop, isTerminal]
    | failure e =>
      by_cases hf : (normalizeError q j e).kind = .workerStop
      · have ht : isTerminal (.failure e) = true :=
          (isTerminal_failure_iff q j e).mpr hf
        by_cases htm : e.core.kind = .timeout <;>
          simp [runLoop, hf, ht, htm]
      · have ht : isTerminal (.failure e) = false := by
          rw [Bool.eq_false_iff]
          intro hc
          exact hf ((isTerminal_failure_iff q j e).mp hc)
        by_cases htm : e.core.kind = .timeout <;>
          simp [runLoop, hf, ht, htm, ih]

/-- Full characterization of a run over `K` retryable failures followed
by a success: the final worker state and event log. -/
theorem runLoop_retry_trace (m : Nat) (q : String) (j : Job) :
    ∀ (errs : List JsError) (s : RunState),
      (∀ e ∈ errs, (normalizeError q j e).kind ≠ .workerStop) →
      ∃ b, runLoop m q j (errs.map .failure ++ [.success]) s = (b, true) ∧
        b.attempt = s.attempt + errs.length + 1 ∧
        b.retryDelay = (nextRetryDelay m)^[errs.length] s.retryDelay ∧
        b.doneCount = s.doneCount + 1 ∧
        b.reports = s.reports ++ errs.map (normalizeError q j) ∧
        b.delays = s.delays ++ delaySeq m s.retryDelay errs.length := by
  intro errs
  induction errs with
  | nil =>
    intro s _
    refine ⟨{ s with attempt := s.attempt + 1,
                     doneCount := s.doneCount + 1,
                     finishes := s.finishes ++ ["success"] },
      ?_, ?_, ?_, ?_, ?_, ?_⟩ <;> simp [runLoop, delaySeq]
  | cons e rest ih =>
    intro s h
    have hf : (normalizeError q j e).kind ≠ .workerStop :=
      h e (List.mem_cons_self e rest)
    have hrest : ∀ x ∈ rest, (normalizeError q j x).kind ≠ .workerStop :=
      fun x hx => h x (List.mem_cons_of_mem e hx)
    by_cases htm : e.core.kind = .timeout
    · obtain ⟨b, hb, h1, h2, h3, h4, h5⟩ := ih
        { s with finishes := (s.finishes ++ ["timeout-error"]) ++ ["task-error"],
                 reports := s.reports ++ [normalizeError q j e],
                 delays := s.delays ++ [s.retryDelay],
                 attempt := s.attempt + 1,
                 retryDelay := nextRetryDelay m s.retryDelay } hrest
      refine ⟨b, ?_, ?_, ?_, ?_, ?_, ?_⟩
      · rw [← hb]
        simp [runLoop, hf, htm]
      · rw [h1]; simp; omega
      · rw [h2, ← Function.iterate_succ_apply]; simp
      · rw [h3]
      · rw [h4]; simp
      · rw [h5]; simp [delaySeq]
    · obtain ⟨b, hb, h1, h2, h3, h4, h5⟩ := ih
        { s with finishes := s.finishes ++ ["task-error"],
                 reports := s.reports ++ [normalizeError q j e],
                 delays := s.delays ++ [s.retryDelay],
                 attempt := s.attempt + 1,
                 retryDelay := nextRetryDelay m s.retryDelay } hrest
      refine ⟨b, ?_, ?_, ?_, ?_, ?_, ?_⟩
      · rw [← hb]
        simp [runLoop, hf, htm]
      · rw [h1]; simp; omega
      · rw [h2, ← Function.iterate_succ_apply]; simp
      · rw [h3]
      · rw [h4]; simp
      · rw [h5]; simp [delaySeq]

end Ponos

namespace Ponos

/-- Missing any required field makes construction throw. -/
theorem construct_missing_required (env : Env) (fresh : String) (opts : Opts)
    (h : opts.done = none ∨ opts.job = none ∨ opts.log = none ∨
      opts.queue = none ∨ opts.task = none) :
    constructOk env fresh opts = false := by
  obtain ⟨od, oj, ol, oq, ot, oe, om, orn, oa, orr, oti⟩ := opts
  cases od <;> cases oj <;> cases ol <;> cases oq <;> cases ot <;>
    simp_all [constructOk, Worker.construct]

/-- A supplied timeout that parses to `NaN` or to a negative integer
makes construction throw. -/
theorem construct_timeout_invalid (env : Env) (fresh : String) (opts : Opts)
    (v : JsVal) (hv : opts.msTimeout = some v) :
    (v.parsed = none → constructOk env fresh opts = false) ∧
    (∀ n : Int, v.parsed = some n → n < 0 →
      constructOk env fresh opts = false) := by
  obtain ⟨od, oj, ol, oq, ot, oe, om, orn, oa, orr, oti⟩ := opts
  simp only at hv
  subst hv
  constructor
  · intro hp
    cases od <;> cases oj <;> cases ol <;> cases oq <;> cases ot <;>
      simp [constructOk, Worker.construct, hp]
  · intro n hp hn
    cases od <;> cases oj <;> cases ol <;> cases oq <;> cases ot <;>
      simp [constructOk, Worker.construct, hp, hn]

/-- Characterization of the state of a successfully constructed
worker. -/
theorem construct_ok_state (env : Env) (fresh : String) (opts : Opts)
    (w : Worker) (hw : Worker.construct env fresh opts = .ok w) :
    w.attempt = 0 ∧ w.retryDelay = env.minRetryDelay.getD 1 ∧
    0 ≤ w.msTimeout ∧ w.runNow = opts.runNow.getD true ∧
    (opts.msTimeout = none → env.workerTimeout = none → w.msTimeout = 0) ∧
    (∀ v n, opts.msTimeout = some v → v.parsed = some n →
      w.msTimeout = n) ∧
    (∀ jb, opts.job = some jb →
      w.job = jb ∧
      w.tid = match jb.tid with
              | some t => if t ≠ "" then t else fresh
              | none => fresh) ∧
    (∀ s, opts.queue = some s → w.queue = s) := by
  obtain ⟨ewt, emin, emax⟩ := env
  obtain ⟨od, oj, ol, oq, ot, oe, om, orn, oa, orr, oti⟩ := opts
  cases od with
  | none => exact absurd hw (by simp [Worker.construct])
  | some u1 =>
  cases oj with
  | none => exact absurd hw (by simp [Worker.construct])
  | some jb =>
  cases ol with
  | none => exact absurd hw (by simp [Worker.construct])
  | some u2 =>
  cases oq with
  | none => exact absurd hw (by simp [Worker.construct])
  | some qn =>
  cases ot with
  | none => exact absurd hw (by simp [Worker.construct])
  | some u3 =>
  rw [Worker.construct] at hw
  simp only at hw
  split at hw
  · exact absurd hw (by simp)
  · rename_i n hp
    split at hw
    · exact absurd hw (by simp)
    · rename_i hneg
      injection hw with hw
      subst hw
      refine ⟨rfl, rfl, by show (0 : Int) ≤ n; omega, rfl, ?_, ?_, ?_, ?_⟩
      · intro h1 h2
        simp only at h1 h2
        subst h1
        subst h2
        simp at hp
        show n = (0 : Int)
        omega
      · intro v n' hv hp'
        simp only at hv
        subst hv
        simp only [Option.getD_some] at hp
        rw [hp'] at hp
        injection hp with hp
        show n = n'
        omega
      · intro jb' hj
        simp only at hj
        injection hj with hj
        subst hj
        exact ⟨rfl, rfl⟩
      · intro s hs
        cases hs
        rfl

/-- A fully supplied, valid options object constructs successfully. -/
theorem construct_complete (env : Env) (fresh : String) (opts : Opts)
    (h1 : opts.done.isSome = true) (h2 : opts.job.isSome = true)
    (h3 : opts.log.isSome = true) (h4 : opts.queue.isSome = true)
    (h5 : opts.task.isSome = true) (v : JsVal) (n : Int)
    (hv : opts.msTimeout = some v) (hp : v.parsed = some n)
    (hn : 0 ≤ n) :
    constructOk env fresh opts = true := by
  obtain ⟨od, oj, ol, oq, ot, oe, om, orn, oa, orr, oti⟩ := opts
  simp only at hv h1 h2 h3 h4 h5
  subst hv
  cases od
  · exact absurd h1 (by simp)
  cases oj
  · exact absurd h2 (by simp)
  cases ol
  · exact absurd h3 (by simp)
  cases oq
  · exact absurd h4 (by simp)
  cases ot
  · exact absurd h5 (by simp)
  simp only [constructOk, Worker.construct, Option.getD_some, hp]
  rw [if_neg (Int.not_lt.2 hn)]

/-! ## Claim theorems -/

/-- C1, counterexample: the claimed transition is false on the code.
With `WORKER_MAX_RETRY_DELAY` unset (max = 0) the delay from 1 stays 1,
not the claimed unbounded doubling `1 * 2`; and with max = 5 the delay
from 3 becomes 6, not the claimed `min (3 * 2) 5 = 5`. -/
theorem C1_counterexample :
    nextRetryDelay 0 1 ≠ 1 * 2 ∧ nextRetryDelay 5 3 ≠ min (3 * 2) 5 := by
  decide

/-- C1 (amended): after each retryable failure the next delay is
`current * 2` when `current < max` and `current` unchanged otherwise —
never clamped to `max`, and with `max = 0` the delay never changes.
Consequently, for a task failing K times then succeeding, the delay
applied before attempt `i+1` is `initial * 2 ^ min (i-1) D` where `D`
(`doublings`) is the number of doublings needed to first reach `max`:
it doubles until it first reaches or exceeds `max`, then stays. -/
theorem C1_retry_delay_amended (m d : Nat) (hd : 0 < d) (q : String)
    (j : Job) (errs : List JsError)
    (h : ∀ e ∈ errs, (normalizeError q j e).kind ≠ .workerStop) :
    (∀ x, nextRetryDelay m x = if x < m then x * 2 else x) ∧
    (∀ x, nextRetryDelay 0 x = x) ∧
    ∃ b, runLoop m q j (errs.map .failure ++ [.success]) (initState d) =
        (b, true) ∧
      b.delays = (List.range errs.length).map
        (fun i => d * 2 ^ min i (doublings m d)) := by
  refine ⟨fun x => rfl, fun x => nextRetryDelay_of_ge 0 x (Nat.zero_le x), ?_⟩
  obtain ⟨b, hb, _, _, _, _, h5⟩ :=
    runLoop_retry_trace m q j errs (initState d) h
  refine ⟨b, hb, ?_⟩
  rw [h5]
  show delaySeq m d errs.length = _
  rw [delaySeq_eq_iterates]
  exact List.map_congr_left fun i _ => iterate_nextRetryDelay_closed m d hd i

/-- C1 witness: max = 4, initial delay 1, three retryable failures. -/
theorem C1_witness :
    0 < 1 ∧
    (∀ e ∈ [genericErr, genericErr, genericErr],
      (normalizeError "q" emptyJob e).kind ≠ .workerStop) ∧
    ∃ b, runLoop 4 "q" emptyJob
        ([genericErr, genericErr, genericErr].map .failure ++ [.success])
        (initState 1) = (b, true) ∧
      b.delays = (List.range 3).map (fun i => 1 * 2 ^ min i (doublings 4 1)) :=
  ⟨by decide, by decide,
    (C1_retry_delay_amended 4 1 (by decide) "q" emptyJob
      [genericErr, genericErr, genericErr] (by decide)).2.2⟩

/-- C2, counterexample: with max = 5 and initial delay 3, the delays
applied over two retries are 3 then 6 — the delay exceeds the configured
maximum after reaching it, refuting "never exceeds that maximum". -/
theorem C2_counterexample :
    (runLoop 5 "q" emptyJob
      [.failure genericErr, .failure genericErr, .success]
      (initState 3)).1.delays = [3, 6] ∧ ¬ (6 : Nat) ≤ 5 := by
  decide

/-- C2 (amended): over any sequence of retryable failures the retry
delay is monotonically non-decreasing, and once it is at or above the
configured maximum it never changes again; it can however overshoot the
maximum (by doubling past it) and then stays at that overshot value. -/
theorem C2_monotone_stable_amended (m d : Nat) :
    (∀ n, (nextRetryDelay m)^[n] d ≤ (nextRetryDelay m)^[n + 1] d) ∧
    (m ≤ d → ∀ n, (nextRetryDelay m)^[n] d = d) := by
  constructor
  · intro n
    rw [Function.iterate_succ_apply']
    exact le_nextRetryDelay m _
  · intro h n
    exact iterate_nextRetryDelay_of_ge m d h n

/-- C2 witness: max 2 is already reached by delay 3; four more retries
leave it unchanged. -/
theorem C2_witness :
    (2 : Nat) ≤ 3 ∧ (nextRetryDelay 2)^[4] 3 = 3 :=
  ⟨by decide, (C2_monotone_stable_amended 2 3).2 (by decide) 4⟩

/-- C3: over any outcome trace, the run loop terminates exactly when the
trace contains a terminal outcome (success, or a failure classified
Fatal), `done()` is invoked exactly once on termination and not at all
otherwise (in particular never for a Timeout or Retryable
classification), and an outcome is terminal precisely when it is a
success or its classification is Fatal. -/
theorem C3_done_exactly_once (m : Nat) (q : String) (j : Job)
    (tr : List Outcome) (s : RunState) :
    (runLoop m q j tr s).2 = tr.any isTerminal ∧
    (runLoop m q j tr s).1.doneCount =
      s.doneCount + (if tr.any isTerminal = true then 1 else 0) ∧
    isTerminal .success = true ∧
    (∀ e, isTerminal (.failure e) = (classify q j e).isFatal) := by
  refine ⟨runLoop_term m q j tr s, runLoop_doneCount m q j tr s, rfl, ?_⟩
  intro e
  by_cases h : (unwrapCause e).kind = .workerStop
  · simp [isTerminal, classify, Classification.isFatal, h]
  · by_cases ht : e.core.kind = .timeout <;>
      simp [isTerminal, classify, Classification.isFatal, h, ht]

/-- C5: construction throws for each missing required option (`done`,
`job`, `log`, `queue`, `task`) independently, and when the supplied
timeout parses to `NaN` (non-numeric) or to a negative integer; on
success the worker starts with `attempt = 0`, the initial retry delay
`WORKER_MIN_RETRY_DELAY` or 1, a validated non-negative timeout taken
from the option, the environment, or 0, and the run loop starts
(`runNow`) unless explicitly suppressed. -/
theorem C5_construction (env : Env) (fresh : String) (opts : Opts) :
    ((opts.done = none ∨ opts.job = none ∨ opts.log = none ∨
      opts.queue = none ∨ opts.task = none) →
      constructOk env fresh opts = false) ∧
    (∀ v, opts.msTimeout = some v → v.parsed = none →
      constructOk env fresh opts = false) ∧
    (∀ v n, opts.msTimeout = some v → v.parsed = some n → n < 0 →
      constructOk env fresh opts = false) ∧
    (∀ w, Worker.construct env fresh opts = .ok w →
      w.attempt = 0 ∧ w.retryDelay = env.minRetryDelay.getD 1 ∧
      0 ≤ w.msTimeout ∧ w.runNow = opts.runNow.getD true ∧
      (opts.msTimeout = none → env.workerTimeout = none →
        w.msTimeout = 0) ∧
      (∀ v n, opts.msTimeout = some v → v.parsed = some n →
        w.msTimeout = n)) ∧
    (opts.done.isSome = true → opts.job.isSome = true →
      opts.log.isSome = true → opts.queue.isSome = true →
      opts.task.isSome = true →
      ∀ v n, opts.msTimeout = some v → v.parsed = some n → 0 ≤ n →
      constructOk env fresh opts = true) := by
  refine ⟨construct_missing_required env fresh opts,
    fun v hv hp => (construct_timeout_invalid env fresh opts v hv).1 hp,
    fun v n hv hp hn =>
      (construct_timeout_invalid env fresh opts v hv).2 n hp hn,
    fun w hw => ?_,
    fun h1 h2 h3 h4 h5 v n hv hp hn =>
      construct_complete env fresh opts h1 h2 h3 h4 h5 v n hv hp hn⟩
  obtain ⟨c1, c2, c3, c4, c5, c6, _, _⟩ :=
    construct_ok_state env fresh opts w hw
  exact ⟨c1, c2, c3, c4, c5, c6⟩

/-- C5 witness: a fully valid options object constructs successfully. -/
theorem C5_witness :
    Worker.construct sampleEnv "t" sampleOpts =
      .ok ⟨0, 1, 5, "a.b", emptyJob, "t", true⟩ ∧
    constructOk sampleEnv "t" sampleOpts = true :=
  ⟨rfl,
    (C5_construction sampleEnv "t" sampleOpts).2.2.2.2 (by decide)
      (by decide) (by decide) (by decide) (by decide) ⟨some 5⟩ 5 rfl rfl
      (by decide)⟩

/-- C9: the constructor whitelists its options: smuggled `attempt`,
`retryDelay` and `tid` values never change the result of construction;
a successfully constructed worker always starts with `attempt = 0`, the
environment-default initial retry delay, and a correlation id taken
from `job.tid` (when truthy) or the freshly generated uuid. -/
theorem C9_option_whitelist (env : Env) (fresh : String) (opts : Opts)
    (a r : Option Nat) (t : Option String) :
    Worker.construct env fresh
      { opts with attempt := a, retryDelay := r, tid := t } =
      Worker.construct env fresh opts ∧
    (∀ w, Worker.construct env fresh opts = .ok w →
      w.attempt = 0 ∧ w.retryDelay = env.minRetryDelay.getD 1 ∧
      (∀ jb, opts.job = some jb →
        w.tid = match jb.tid with
                | some s => if s ≠ "" then s else fresh
                | none => fresh)) := by
  constructor
  · obtain ⟨od, oj, ol, oq, ot, oe, om, orn, oa, orr, oti⟩ := opts
    rfl
  · intro w hw
    obtain ⟨c1, c2, _, _, _, _, c7, _⟩ :=
      construct_ok_state env fresh opts w hw
    exact ⟨c1, c2, fun jb hj => (c7 jb hj).2⟩

/-- C9 witness: smuggled state options are discarded and the worker
starts from the clean internal state. -/
theorem C9_witness :
    Worker.construct sampleEnv "t"
      { sampleOpts with
          attempt := some 99
          retryDelay := some 1000
          tid := some "evil" } = Worker.construct sampleEnv "t" sampleOpts ∧
    Worker.construct sampleEnv "t" sampleOpts =
      .ok ⟨0, 1, 5, "a.b", emptyJob, "t", true⟩ ∧
    (⟨0, 1, 5, "a.b", emptyJob, "t", true⟩ : Worker).attempt = 0 ∧
    (⟨0, 1, 5, "a.b", emptyJob, "t", true⟩ : Worker).retryDelay =
      sampleEnv.minRetryDelay.getD 1 :=
  ⟨(C9_option_whitelist sampleEnv "t" sampleOpts
      (some 99) (some 1000) (some "evil")).1,
    rfl,
    ((C9_option_whitelist sampleEnv "t" sampleOpts
      (some 99) (some 1000) (some "evil")).2 _ rfl).1,
    ((C9_option_whitelist sampleEnv "t" sampleOpts
      (some 99) (some 1000) (some "evil")).2 _ rfl).2.1⟩

/-- C6: an always-succeeding task completes with attempt counter 1, one
`done()`, no reports and no delay; a task failing K times retryably then
succeeding completes with attempt counter K+1, one `done()` and exactly
K reports; a task failing fatally on attempt 1 ends with attempt
counter 1, one `done()`, exactly one report and no scheduled retry. -/
theorem C6_attempt_and_report_counts (m : Nat) (q : String) (j : Job)
    (d : Nat) (errs : List JsError)
    (h : ∀ e ∈ errs, (normalizeError q j e).kind ≠ .workerStop)
    (efat : JsError) (hf : (normalizeError q j efat).kind = .workerStop) :
    runLoop m q j [.success] (initState d) =
      (⟨1, d, 1, [], [], ["success"]⟩, true) ∧
    (∃ b, runLoop m q j (errs.map .failure ++ [.success]) (initState d) =
        (b, true) ∧
      b.attempt = errs.length + 1 ∧ b.doneCount = 1 ∧
      b.reports.length = errs.length) ∧
    (∃ b, runLoop m q j [.failure efat] (initState d) = (b, true) ∧
      b.attempt = 1 ∧ b.doneCount = 1 ∧ b.reports.length = 1 ∧
      b.delays = []) := by
  refine ⟨by simp [runLoop, initState], ?_, ?_⟩
  · obtain ⟨b, hb, h1, _, h3, h4, _⟩ :=
      runLoop_retry_trace m q j errs (initState d) h
    refine ⟨b, hb, ?_, ?_, ?_⟩
    · rw [h1]; simp [initState]
    · rw [h3]; simp [initState]
    · rw [h4]; simp [initState]
  · by_cases htm : efat.core.kind = .timeout
    · exact ⟨⟨1, d, 1, [normalizeError q j efat], [],
          ["timeout-error", "fatal-error"]⟩,
        by simp [runLoop, initState, hf, htm], rfl, rfl, by simp, rfl⟩
    · exact ⟨⟨1, d, 1, [normalizeError q j efat], [], ["fatal-error"]⟩,
        by simp [runLoop, initState, hf, htm], rfl, rfl, by simp, rfl⟩

/-- C6 witness: max 7, two retryable failures then success, and a fatal
failure on the first attempt. -/
theorem C6_witness :
    ((∀ e ∈ [genericErr, genericErr],
        (normalizeError "q" emptyJob e).kind ≠ .workerStop) ∧
      (normalizeError "q" emptyJob stopErr).kind = .workerStop) ∧
    (∃ b, runLoop 7 "q" emptyJob [.failure stopErr] (initState 1) =
        (b, true) ∧
      b.attempt = 1 ∧ b.doneCount = 1 ∧ b.reports.length = 1 ∧
      b.delays = []) :=
  ⟨⟨by decide, by decide⟩,
    (C6_attempt_and_report_counts 7 "q" emptyJob 1 [genericErr, genericErr]
      (by decide) stopErr (by decide)).2.2⟩

/-- C4, counterexample: an error explicitly marked fatal
(`WorkerStopError`) that carries a generic `cause` is classified
Retryable, not Fatal — the cause unwrap runs before the fatal check, so
the fatal check never sees the marked error. -/
theorem C4_counterexample :
    (JsError.mk ⟨.workerStop, none⟩ (some ⟨.generic, none⟩)).core.kind =
      .workerStop ∧
    (classify "q" emptyJob
      ⟨⟨.workerStop, none⟩, some ⟨.generic, none⟩⟩).isFatal = false := by
  decide

/-- C4 (amended): classification decides Fatal on the cause-unwrapped
error: it is Fatal exactly when the unwrapped error is a
`WorkerStopError`; a cause-free `WorkerStopError` is Fatal; the timeout
signal (not carrying a fatal cause) is classified Timeout, never Fatal,
and — like every other non-fatal error — is not terminal, i.e. it is
retried identically to a generic retryable error.  The timeout check
runs first in the chain but only logs and falls through. -/
theorem C4_classification_amended (q : String) (j : Job) (e : JsError) :
    ((classify q j e).isFatal = true ↔ (unwrapCause e).kind = .workerStop) ∧
    (e.cause = none → e.core.kind = .workerStop →
      classify q j e = .fatal (normalizeError q j e)) ∧
    (e.core.kind = .timeout → (unwrapCause e).kind ≠ .workerStop →
      classify q j e = .timeout (normalizeError q j e) ∧
      isTerminal (.failure e) = false) ∧
    (e.core.kind ≠ .timeout → (unwrapCause e).kind ≠ .workerStop →
      classify q j e = .retryable (normalizeError q j e) ∧
      isTerminal (.failure e) = false) := by
  refine ⟨?_, ?_, ?_, ?_⟩
  · by_cases h : (unwrapCause e).kind = .workerStop
    · simp [classify, Classification.isFatal, h]
    · by_cases ht : e.core.kind = .timeout <;>
        simp [classify, Classification.isFatal, h, ht]
  · intro hc hk
    have h : unwrapCause e = e.core := by simp [unwrapCause, hc]
    simp [classify, h, hk]
  · intro ht h
    exact ⟨by simp [classify, h, ht], by simp [isTerminal, h]⟩
  · intro ht h
    exact ⟨by simp [classify, h, ht], by simp [isTerminal, h]⟩

/-- C4 witness: the bare timeout signal is classified Timeout and is not
terminal. -/
theorem C4_witness :
    (timeoutErr.core.kind = .timeout ∧
      (unwrapCause timeoutErr).kind ≠ .workerStop) ∧
    classify "q" emptyJob timeoutErr =
      .timeout (normalizeError "q" emptyJob timeoutErr) ∧
    isTerminal (.failure timeoutErr) = false :=
  ⟨⟨by decide, by decide⟩,
    (C4_classification_amended "q" emptyJob timeoutErr).2.2.1
      (by decide) (by decide)⟩

/-- C7, counterexample: a `queue` value already present on the error's
data but equal to the empty string (falsy) IS overwritten with the
worker's queue name during normalization, refuting "a queue value
already present is never overwritten". -/
theorem C7_counterexample :
    (ErrCore.mk .generic (some ⟨some "", none, []⟩)).data =
      some ⟨some "", none, []⟩ ∧
    (fillData "q" emptyJob ⟨.generic, some ⟨some "", none, []⟩⟩).data =
      some ⟨some "q", some emptyJob, []⟩ ∧
    (some "" : Option String) ≠ some "q" := by
  decide

/-- C7 (amended): normalization unwraps a wrapping cause when present;
`data.queue` is filled with the worker's queue name when it is absent OR
falsy (the empty string) and kept otherwise; `data.job` is filled
exactly when absent (a present job object is always truthy and kept);
all other data fields are unchanged; a non-object `data` is first
replaced by a fresh empty object and then filled. -/
theorem C7_normalization_frame (q : String) (j : Job) (e : JsError)
    (c : ErrCore) (k : ErrKind) (d : ErrData) :
    (e.cause = some c → normalizeError q j e = fillData q j c) ∧
    (e.cause = none → normalizeError q j e = fillData q j e.core) ∧
    fillData q j ⟨k, some d⟩ =
      ⟨k, some ⟨if truthyStr d.queue then d.queue else some q,
                if d.job.isSome then d.job else some j,
                d.rest⟩⟩ ∧
    fillData q j ⟨k, none⟩ = ⟨k, some ⟨some q, some j, []⟩⟩ := by
  obtain ⟨dq, dj, dr⟩ := d
  refine ⟨?_, ?_, ?_, ?_⟩
  · intro hc
    rw [normalizeError]
    congr 1
    simp [unwrapCause, hc]
  · intro hc
    rw [normalizeError]
    congr 1
    simp [unwrapCause, hc]
  · by_cases hq : truthyStr dq <;> by_cases hj : dj.isSome <;>
      simp [fillData, hq, hj]
  · simp [fillData, truthyStr]

/-- C7 witness: a wrapped cause is unwrapped before the data fill. -/
theorem C7_witness :
    (JsError.mk ⟨.generic, none⟩ (some ⟨.generic, none⟩)).cause =
      some ⟨.generic, none⟩ ∧
    normalizeError "q" emptyJob ⟨⟨.generic, none⟩, some ⟨.generic, none⟩⟩ =
      fillData "q" emptyJob ⟨.generic, none⟩ :=
  ⟨rfl,
    (C7_normalization_frame "q" emptyJob
      ⟨⟨.generic, none⟩, some ⟨.generic, none⟩⟩ ⟨.generic, none⟩
      .generic ⟨none, none, []⟩).1 rfl⟩

/-- C10: an error whose `cause` is a `WorkerStopError` is handled as
Fatal: normalization (cause unwrap and context fill) runs before the
fatal branch, so the unwrapped, context-filled cause is what is
classified Fatal, reported to the sink, and the run terminates with a
single `done()`. -/
theorem C10_fatal_cause (q : String) (j : Job) (e : JsError) (c : ErrCore)
    (m : Nat) (s : RunState) (hc : e.cause = some c)
    (hk : c.kind = .workerStop) :
    classify q j e = .fatal (fillData q j c) ∧
    normalizeError q j e = fillData q j c ∧
    (runLoop m q j [.failure e] s).2 = true ∧
    (runLoop m q j [.failure e] s).1.reports =
      s.reports ++ [fillData q j c] ∧
    (runLoop m q j [.failure e] s).1.doneCount = s.doneCount + 1 := by
  have hu : unwrapCause e = c := by simp [unwrapCause, hc]
  have hn : normalizeError q j e = fillData q j c := by
    rw [normalizeError, hu]
  have hk' : (normalizeError q j e).kind = .workerStop := by
    rw [hn, fillData_kind]
    exact hk
  refine ⟨?_, hn, ?_, ?_, ?_⟩
  · rw [classify.eq_def]
    simp only [hu, hk, if_pos, hn]
  · by_cases htm : e.core.kind = .timeout <;>
      simp [runLoop, hn, fillData_kind, hk, htm]
  · by_cases htm : e.core.kind = .timeout <;>
      simp [runLoop, hn, fillData_kind, hk, htm]
  · by_cases htm : e.core.kind = .timeout <;>
      simp [runLoop, hn, fillData_kind, hk, htm]

/-- C10 witness: a generic error wrapping a `WorkerStopError` cause. -/
theorem C10_witness :
    ((JsError.mk ⟨.generic, none⟩ (some ⟨.workerStop, none⟩)).cause =
      some ⟨.workerStop, none⟩ ∧
      (ErrCore.mk .workerStop none).kind = .workerStop) ∧
    classify "q" emptyJob ⟨⟨.generic, none⟩, some ⟨.workerStop, none⟩⟩ =
      .fatal (fillData "q" emptyJob ⟨.workerStop, none⟩) :=
  ⟨⟨rfl, rfl⟩,
    (C10_fatal_cause "q" emptyJob ⟨⟨.generic, none⟩, some ⟨.workerStop, none⟩⟩
      ⟨.workerStop, none⟩ 0 (initState 1) rfl rfl).1⟩

theorem joinDots_cons (x : String) (l : List String) (h : l ≠ []) :
    joinDots (x :: l) = x ++ "." ++ joinDots l := by
  cases l with
  | nil => exact absurd rfl h
  | cons y ys => rfl

/-- Joining is insensitive to pre-joining the last two parts. -/
theorem joinDots_append_pair (xs : List String) (a b : String) :
    joinDots (xs ++ [a, b]) = joinDots (xs ++ [a ++ "." ++ b]) := by
  induction xs with
  | nil => rfl
  | cons x xs ih =>
    rw [List.cons_append, List.cons_append,
      joinDots_cons x _ (by simp), joinDots_cons x _ (by simp), ih]

/-- The reduce at positive index `i + 1` with accumulated token `J`
emits, for every `k`, the join of the first `k + 1` pending tokens (in
part order) followed by `J`. -/
theorem tagsAux_succ_spec (ts : List String) :
    ∀ (i : Nat) (J : String),
      tagsAux (i + 1) J ts = (List.range ts.length).map
        (fun k => ("token" ++ toString (i + 1 + k),
                   joinDots ((ts.take (k + 1)).reverse ++ [J]))) := by
  induction ts with
  | nil => intro i J; rfl
  | cons t rest ih =>
    intro i J
    have hstep : tagsAux (i + 1) J (t :: rest) =
        ("token" ++ toString (i + 1), t ++ "." ++ J) ::
          tagsAux (i + 1 + 1) (t ++ "." ++ J) rest := by
      simp [tagsAux]
    rw [hstep, ih (i + 1) (t ++ "." ++ J), List.length_cons,
      List.range_succ_eq_map, List.map_cons, List.map_map]
    refine congrArg₂ List.cons rfl ?_
    refine List.map_congr_left ?_
    intro k _
    simp only [Function.comp]
    refine congrArg₂ Prod.mk ?_ ?_
    · have h : i + 1 + 1 + k = i + 1 + (k + 1) := by omega
      rw [h]
    · rw [List.take_succ_cons, List.reverse_cons, List.append_assoc]
      exact (joinDots_append_pair _ t J).symm

/-- The whole reduce: the `k`-th emitted tag is `token<k>` mapped to the
join of the first `k + 1` tokens in part order. -/
theorem tagsAux_zero_spec (ts : List String) :
    tagsAux 0 "" ts = (List.range ts.length).map
      (fun k => ("token" ++ toString k,
                 joinDots ((ts.take (k + 1)).reverse))) := by
  cases ts with
  | nil => rfl
  | cons t rest =>
    have hstep : tagsAux 0 "" (t :: rest) =
        ("token" ++ toString 0, t) :: tagsAux 1 t rest := by
      simp [tagsAux]
    rw [hstep, tagsAux_succ_spec rest 0 t, List.length_cons,
      List.range_succ_eq_map, List.map_cons, List.map_map]
    refine congrArg₂ List.cons rfl ?_
    refine List.map_congr_left ?_
    intro k _
    simp only [Function.comp]
    refine congrArg₂ Prod.mk ?_ ?_
    · have h : 0 + 1 + k = Nat.succ k := by omega
      rw [h]
    · rw [List.take_succ_cons, List.reverse_cons]

theorem splitOnDot_ne_nil (cs : List Char) : splitOnDot cs ≠ [] := by
  rcases cs with _ | ⟨c, rest⟩
  · simp [splitOnDot]
  · rcases h : splitOnDot rest with _ | ⟨s, ss⟩
    · simp [splitOnDot, h]
    · by_cases hc : c = '.' <;> simp [splitOnDot, h, hc]

/-- Joining the split parts with `'.'` recovers the original string:
the split model is faithful. -/
theorem joinDots_splitOnDot (cs : List Char) :
    joinDots (splitOnDot cs) = ⟨cs⟩ := by
  induction cs with
  | nil => rfl
  | cons c rest ih =>
    rcases h : splitOnDot rest with _ | ⟨s, ss⟩
    · exact absurd h (splitOnDot_ne_nil rest)
    · rw [h] at ih
      by_cases hc : c = '.'
      · subst hc
        have hsplit : splitOnDot ('.' :: rest) = "" :: s :: ss := by
          simp [splitOnDot, h]
        rw [hsplit, joinDots_cons _ _ (by simp), ih]
        apply String.ext
        simp [String.data_append]
      · have hsplit : splitOnDot (c :: rest) = (⟨[c]⟩ ++ s) :: ss := by
          simp [splitOnDot, h, hc]
        rw [hsplit]
        rcases ss with _ | ⟨u, us⟩
        · show ⟨[c]⟩ ++ s = (⟨c :: rest⟩ : String)
          have ihs : s = (⟨rest⟩ : String) := ih
          rw [ihs]
          apply String.ext
          simp [String.data_append]
        · rw [joinDots_cons _ _ (by simp)]
          have ihs : s ++ "." ++ joinDots (u :: us) = (⟨rest⟩ : String) := by
            rw [← joinDots_cons s (u :: us) (by simp)]
            exact ih
          have hdata := congrArg String.data ihs
          apply String.ext
          simp only [String.data_append, List.append_assoc] at hdata ⊢
          rw [hdata]
          simp

/-- C8: for every dot-delimited queue name the derived telemetry tags
are the progressively longer right-to-left suffixes — `token<i>` maps to
the join of the last `i + 1` dot-separated parts of the name (joining all
parts recovers the full name, so the last token is the whole name) — plus
the full queue name under the `queue` key; in particular for `"a.b.c"`
the tags are token0 `"c"`, token1 `"b.c"`, token2 `"a.b.c"`, and
queue `"a.b.c"`. -/
theorem C8_event_tags (q : String) :
    _eventTags "a.b.c" = [("token0", "c"), ("token1", "b.c"),
      ("token2", "a.b.c"), ("queue", "a.b.c")] ∧
    joinDots (splitOnDot q.data) = q ∧
    _eventTags q =
      (List.range (splitOnDot q.data).length).map
        (fun i => ("token" ++ toString i,
          joinDots ((splitOnDot q.data).drop
            ((splitOnDot q.data).length - 1 - i)))) ++ [("queue", q)] := by
  refine ⟨by decide, joinDots_splitOnDot q.data, ?_⟩
  rw [_eventTags, tagsAux_zero_spec]
  refine congrArg₂ _ ?_ rfl
  rw [List.length_reverse]
  refine List.map_congr_left ?_
  intro k hk
  rw [List.mem_range] at hk
  refine congrArg₂ Prod.mk rfl (congrArg joinDots ?_)
  rw [List.take_reverse, List.reverse_reverse]
  congr 1
  omega

end Ponos

